import Mathlib

/-!
Verification of the string-analyser service (`src/app.py`) against its
natural-language specification.

Strings are embedded as `List Char` (Python's `str` is a sequence of Unicode
scalar values).  Python's `str.lower` and `str.isspace` are modelled for the
ASCII range, which covers every input appearing in the specification's
examples; the SHA-256 digest computed by `hashlib` is kept abstract as a
`hash` parameter threaded through the store operations, since no claim
depends on the digest's concrete value.
-/

/-- ASCII lowercase of one character, modelling Python `str.lower` per
character (`A`-`Z` map to `a`-`z`, everything else is unchanged). -/
def pyLowerChar (c : Char) : Char :=
  if 'A' ≤ c ∧ c ≤ 'Z' then Char.ofNat (c.toNat + 32) else c

/-- `value.lower()` over the whole string. -/
def pyLower (s : List Char) : List Char :=
  s.map pyLowerChar

/-- Whitespace characters recognised by Python `str.split()` (ASCII part). -/
def isPySpace (c : Char) : Bool :=
  c = ' ' || c = '\t' || c = '\n' || c = '\r' || c = Char.ofNat 11 || c = Char.ofNat 12

/-- Counts maximal non-whitespace runs, i.e. `len(value.split())`.
The boolean records whether the previous character was inside a word. -/
def wordCountAux : List Char → Bool → Nat
  | [], _ => 0
  | c :: rest, inWord =>
    if isPySpace c then wordCountAux rest false
    else (if inWord then 0 else 1) + wordCountAux rest true

/-- `len(value.split())` from `analyze_string`. -/
def wordCount (s : List Char) : Nat :=
  wordCountAux s false

/-- One step of the frequency loop `char_freq[char] = char_freq.get(char, 0) + 1`:
increment the entry for `c`, appending a fresh entry when absent (Python dicts
keep insertion order, so a fresh key goes to the end). -/
def freqBump : List (Char × Nat) → Char → List (Char × Nat)
  | [], c => [(c, 1)]
  | (k, n) :: rest, c =>
    if k = c then (k, n + 1) :: rest else (k, n) :: freqBump rest c

/-- The character-frequency map built by the `for char in value` loop of
`analyze_string`, as an insertion-ordered association list. -/
def charFreq (value : List Char) : List (Char × Nat) :=
  value.foldl freqBump []

/-- The property bundle returned by `analyze_string` (`src/app.py`, lines
38-67).  `sha256_hash` is omitted here and modelled abstractly as the `hash`
parameter of the store operations. -/
structure PropertyBundle where
  length : Nat
  is_palindrome : Bool
  unique_characters : Nat
  word_count : Nat
  character_frequency_map : List (Char × Nat)
  deriving Repr, DecidableEq

/-- `analyze_string(value)`: `length = len(value)`,
`is_palindrome = value.lower() == value.lower()[::-1]`,
`unique_characters = len(set(value))`, `word_count = len(value.split())`,
and the frequency map built by the loop. -/
def analyzeString (value : List Char) : PropertyBundle :=
  { length := value.length
    is_palindrome := pyLower value == (pyLower value).reverse
    unique_characters := value.eraseDups.length
    word_count := wordCount value
    character_frequency_map := charFreq value }

/-- Sum of the counts stored in a frequency map. -/
def sumCounts (m : List (Char × Nat)) : Nat :=
  (m.map Prod.snd).sum

theorem sumCounts_freqBump (m : List (Char × Nat)) (c : Char) :
    sumCounts (freqBump m c) = sumCounts m + 1 := by
  induction m with
  | nil => rfl
  | cons p rest ih =>
    obtain ⟨k, n⟩ := p
    by_cases h : k = c
    · simp [freqBump, h, sumCounts]
      omega
    · simp [freqBump, h, sumCounts] at ih ⊢
      omega

theorem sumCounts_foldl (s : List Char) :
    ∀ m : List (Char × Nat), sumCounts (s.foldl freqBump m) = sumCounts m + s.length := by
  induction s with
  | nil => intro m; simp
  | cons c rest ih =>
    intro m
    simp only [List.foldl_cons, ih, sumCounts_freqBump, List.length_cons]
    omega

/-- First-of-two option choice, modelling ordered alternatives of a
backtracking regular-expression engine. -/
def oor (a b : Option Char) : Option Char :=
  match a with
  | some c => some c
  | none => b

/-- Python's `pat in s` substring test. -/
def isSubstrB (pat : List Char) (s : List Char) : Bool :=
  match s with
  | [] => pat.isEmpty
  | _ :: rest => pat.isPrefixOf s || isSubstrB pat rest

/-- Strip a literal prefix, or fail. -/
def dropLit (pat l : List Char) : Option (List Char) :=
  if pat.isPrefixOf l then some (l.drop pat.length) else none

/-- ASCII decimal digit test (`\d` of the patterns, which only ever face
ASCII text in this service). -/
def isAsciiDigit (c : Char) : Bool :=
  '0' ≤ c && c ≤ '9'

def digitVal (c : Char) : Nat :=
  c.toNat - 48

/-- Value of the maximal leading digit run, or `none` when the first
character is not a digit — the `(\d+)` group of the length patterns. -/
def takeNum (l : List Char) : Option Nat :=
  match l with
  | [] => none
  | c :: _ =>
    if isAsciiDigit c then
      some ((l.takeWhile isAsciiDigit).foldl (fun a d => 10 * a + digitVal d) 0)
    else none

/-- `re.search(pat + r"(\d+)", text)` for a literal `pat`: find the leftmost
position where `pat` is followed by at least one digit and return the value
of the maximal digit run there. -/
def searchIntAfter (pat : List Char) : List Char → Option Nat
  | [] => none
  | l@(_ :: rest) =>
    match dropLit pat l with
    | some t =>
      match takeNum t with
      | some n => some n
      | none => searchIntAfter pat rest
    | none => searchIntAfter pat rest

/-- The literal pattern strings of `parse_natural_language`. -/
def palStem : List Char := "palindrom".toList

def singleWordPat : List Char := "single word".toList

def twoWordPat : List Char := "two word".toList

def twoWordDigitPat : List Char := "2 word".toList

def longerPat : List Char := "longer than ".toList

def shorterPat : List Char := "shorter than ".toList

def letterWordPat : List Char := "letter ".toList

def characterWordPat : List Char := "character ".toList

def theWordPat : List Char := "the ".toList

def ingPat : List Char := "ing".toList

def containStemPat : List Char := "contain".toList

def firstVowelPat : List Char := "first vowel".toList

/-- The `([a-z])` group of the containment pattern. -/
def containLetter (l : List Char) : Option Char :=
  match l with
  | c :: _ => if 'a' ≤ c && c ≤ 'z' then some c else none
  | [] => none

/-- `(?:letter |character )?([a-z])` with regex backtracking: try
`letter `, then `character `, then the empty alternative. -/
def containAfterThe (l : List Char) : Option Char :=
  oor (match dropLit letterWordPat l with
       | some t => containLetter t
       | none => none)
    (oor (match dropLit characterWordPat l with
          | some t => containLetter t
          | none => none)
      (containLetter l))

/-- `(?:the )?` then the rest of the containment pattern. -/
def containAfterSpace (l : List Char) : Option Char :=
  oor (match dropLit theWordPat l with
       | some t => containAfterThe t
       | none => none)
    (containAfterThe l)

/-- The mandatory space between `contain(?:s|ing)?` and the optional words. -/
def containSpace (l : List Char) : Option Char :=
  match l with
  | ' ' :: t => containAfterSpace t
  | _ => none

/-- `(?:s|ing)?` after the stem `contain`, trying `s`, then `ing`, then the
empty alternative, each followed by the rest of the pattern. -/
def containAfterStem (l : List Char) : Option Char :=
  oor (match l with
       | 's' :: t => containSpace t
       | _ => none)
    (oor (match dropLit ingPat l with
          | some t => containSpace t
          | none => none)
      (containSpace l))

/-- `re.search(r"contain(?:s|ing)? (?:the )?(?:letter |character )?([a-z])", text)`:
scan left to right for the first position where the whole pattern matches and
return the captured letter. -/
def searchContain : List Char → Option Char
  | [] => none
  | l@(_ :: rest) =>
    oor (match dropLit containStemPat l with
         | some t => containAfterStem t
         | none => none)
      (searchContain rest)

/-- The filter dictionary built by `parse_natural_language`
(`src/app.py`, lines 69-105); a `none` field is an absent key. -/
structure Filters where
  is_palindrome : Option Bool
  word_count : Option Nat
  min_length : Option Int
  max_length : Option Int
  contains_character : Option Char
  deriving Repr, DecidableEq

/-- The empty filter dictionary. -/
def noFilters : Filters :=
  ⟨none, none, none, none, none⟩

/-- `not filters` of `filter_by_natural_language`: the dictionary is empty
exactly when no rule assigned any key. -/
def Filters.isEmptyB (f : Filters) : Bool :=
  f.is_palindrome.isNone && f.word_count.isNone && f.min_length.isNone &&
    f.max_length.isNone && f.contains_character.isNone

/-- Rule 1 of `parse_natural_language`: the palindrome stem. -/
def stepPal (q : List Char) (f : Filters) : Filters :=
  if isSubstrB palStem q then { f with is_palindrome := some true } else f

/-- Rule 2: the word-count phrases (`single word`, else `two word`/`2 word`). -/
def stepWC (q : List Char) (f : Filters) : Filters :=
  if isSubstrB singleWordPat q then { f with word_count := some 1 }
  else if isSubstrB twoWordPat q || isSubstrB twoWordDigitPat q then
    { f with word_count := some 2 }
  else f

/-- Rule 3: `longer than (\d+)` sets `min_length = N + 1`. -/
def stepMin (q : List Char) (f : Filters) : Filters :=
  match searchIntAfter longerPat q with
  | some n => { f with min_length := some ((n : Int) + 1) }
  | none => f

/-- Rule 4: `shorter than (\d+)` sets `max_length = N - 1`. -/
def stepMax (q : List Char) (f : Filters) : Filters :=
  match searchIntAfter shorterPat q with
  | some n => { f with max_length := some ((n : Int) - 1) }
  | none => f

/-- Rule 5: the character-containment pattern. -/
def stepContain (q : List Char) (f : Filters) : Filters :=
  match searchContain q with
  | some c => { f with contains_character := some c }
  | none => f

/-- Rule 6: `first vowel` assigns `contains_character = 'a'` last,
overwriting rule 5's assignment when both fired. -/
def stepVowel (q : List Char) (f : Filters) : Filters :=
  if isSubstrB firstVowelPat q then { f with contains_character := some 'a' } else f

/-- `parse_natural_language(query)` (`src/app.py`, lines 69-105): lower-case
the query, then apply the six rules in source order to the initially empty
dictionary. -/
def parseNL (query : List Char) : Filters :=
  stepVowel (pyLower query)
    (stepContain (pyLower query)
      (stepMax (pyLower query)
        (stepMin (pyLower query)
          (stepWC (pyLower query) (stepPal (pyLower query) noFilters)))))

theorem stepPal_proj (q : List Char) (f : Filters) :
    (stepPal q f).word_count = f.word_count ∧ (stepPal q f).min_length = f.min_length ∧
      (stepPal q f).max_length = f.max_length ∧
      (stepPal q f).contains_character = f.contains_character := by
  unfold stepPal; split <;> simp

theorem stepWC_proj (q : List Char) (f : Filters) :
    (stepWC q f).is_palindrome = f.is_palindrome ∧ (stepWC q f).min_length = f.min_length ∧
      (stepWC q f).max_length = f.max_length ∧
      (stepWC q f).contains_character = f.contains_character := by
  unfold stepWC; repeat' split <;> simp

theorem stepMin_proj (q : List Char) (f : Filters) :
    (stepMin q f).is_palindrome = f.is_palindrome ∧ (stepMin q f).word_count = f.word_count ∧
      (stepMin q f).max_length = f.max_length ∧
      (stepMin q f).contains_character = f.contains_character := by
  unfold stepMin; split <;> simp

theorem stepMax_proj (q : List Char) (f : Filters) :
    (stepMax q f).is_palindrome = f.is_palindrome ∧ (stepMax q f).word_count = f.word_count ∧
      (stepMax q f).min_length = f.min_length ∧
      (stepMax q f).contains_character = f.contains_character := by
  unfold stepMax; split <;> simp

theorem stepContain_proj (q : List Char) (f : Filters) :
    (stepContain q f).is_palindrome = f.is_palindrome ∧
      (stepContain q f).word_count = f.word_count ∧
      (stepContain q f).min_length = f.min_length ∧
      (stepContain q f).max_length = f.max_length := by
  unfold stepContain; split <;> simp

theorem stepVowel_proj (q : List Char) (f : Filters) :
    (stepVowel q f).is_palindrome = f.is_palindrome ∧
      (stepVowel q f).word_count = f.word_count ∧
      (stepVowel q f).min_length = f.min_length ∧
      (stepVowel q f).max_length = f.max_length := by
  unfold stepVowel; split <;> simp

theorem parseNL_is_palindrome (query : List Char) :
    (parseNL query).is_palindrome =
      (if isSubstrB palStem (pyLower query) then some true else none) := by
  unfold parseNL
  rw [(stepVowel_proj _ _).1, (stepContain_proj _ _).1, (stepMax_proj _ _).1,
    (stepMin_proj _ _).1, (stepWC_proj _ _).1]
  unfold stepPal noFilters; split <;> rfl

theorem parseNL_word_count (query : List Char) :
    (parseNL query).word_count =
      (if isSubstrB singleWordPat (pyLower query) then some 1
       else if isSubstrB twoWordPat (pyLower query)
           || isSubstrB twoWordDigitPat (pyLower query) then some 2
       else none) := by
  unfold parseNL
  rw [(stepVowel_proj _ _).2.1, (stepContain_proj _ _).2.1, (stepMax_proj _ _).2.1,
    (stepMin_proj _ _).2.1]
  unfold stepWC
  repeat' split <;> simp [(stepPal_proj _ _).1, noFilters]

theorem parseNL_min_length (query : List Char) :
    (parseNL query).min_length =
      (searchIntAfter longerPat (pyLower query)).map
        (fun n => (n : Int) + 1) := by
  unfold parseNL
  rw [(stepVowel_proj _ _).2.2.1, (stepContain_proj _ _).2.2.1, (stepMax_proj _ _).2.2.1]
  unfold stepMin
  split <;> simp_all [(stepWC_proj _ _).2.1, (stepPal_proj _ _).2.1, noFilters]

theorem parseNL_max_length (query : List Char) :
    (parseNL query).max_length =
      (searchIntAfter shorterPat (pyLower query)).map
        (fun n => (n : Int) - 1) := by
  unfold parseNL
  rw [(stepVowel_proj _ _).2.2.2, (stepContain_proj _ _).2.2.2]
  unfold stepMax
  split <;>
    simp_all [(stepMin_proj _ _).2.2.1, (stepWC_proj _ _).2.2.1, (stepPal_proj _ _).2.2.1,
      noFilters]

theorem parseNL_contains_character (query : List Char) :
    (parseNL query).contains_character =
      (if isSubstrB firstVowelPat (pyLower query) then some 'a'
       else searchContain (pyLower query)) := by
  unfold parseNL stepVowel
  split
  · simp_all
  · unfold stepContain
    split <;> simp_all [(stepMax_proj _ _).2.2.2, (stepMin_proj _ _).2.2.2,
      (stepWC_proj _ _).2.2.2, (stepPal_proj _ _).2.2.2, noFilters]

/-- Lowercase hexadecimal digit character, as used by CPython `repr` escapes. -/
def hexChar (d : Nat) : Char :=
  if d < 10 then Char.ofNat (48 + d) else Char.ofNat (87 + d)

/-- Fixed-width lowercase hexadecimal rendering (most significant first). -/
def hexDigits : Nat → Nat → List Char
  | 0, _ => []
  | w + 1, n => hexChar (n / 16 ^ w) :: hexDigits w (n % 16 ^ w)

/-- Value of a hexadecimal digit character (`eval` accepts both cases). -/
def hexVal (c : Char) : Option Nat :=
  if '0' ≤ c && c ≤ '9' then some (c.toNat - 48)
  else if 'a' ≤ c && c ≤ 'f' then some (c.toNat - 87)
  else if 'A' ≤ c && c ≤ 'F' then some (c.toNat - 55)
  else none

/-- Consume exactly `w` hexadecimal digits, accumulating their value. -/
def parseHexW : Nat → Nat → List Char → Option (Nat × List Char)
  | 0, acc, l => some (acc, l)
  | w + 1, acc, l =>
    match l with
    | [] => none
    | c :: rest =>
      match hexVal c with
      | some d => parseHexW w (16 * acc + d) rest
      | none => none

/-- Python `str(n)` for a non-negative integer (the frequency counts). -/
def natRepr (n : Nat) : List Char :=
  if n = 0 then ['0'] else ((Nat.digits 10 n).map (fun d => Char.ofNat (48 + d))).reverse

/-- Maximal decimal-digit run as a number — the integer literals read back by
`eval`.  Fails when the input does not start with a digit. -/
def parseNatLit (l : List Char) : Option (Nat × List Char) :=
  match l with
  | [] => none
  | c :: _ =>
    if isAsciiDigit c then
      some ((l.takeWhile isAsciiDigit).foldl (fun a d => 10 * a + digitVal d) 0,
        l.dropWhile isAsciiDigit)
    else none

/-- The body CPython `repr` emits for one character of a string delimited by
quote `q`: backslash-escapes for the quote, the backslash and `\t`/`\n`/`\r`;
`\xHH` for other control characters; the character itself when printable;
`\xHH`/`\uHHHH`/`\UHHHHHHHH` otherwise.  Unicode printability is kept
abstract as the predicate `P`, since the round-trip holds for any table. -/
def charBody (P : Char → Bool) (q c : Char) : List Char :=
  if c = q then ['\\', c]
  else if c = '\\' then ['\\', '\\']
  else if c = '\t' then ['\\', 't']
  else if c = '\n' then ['\\', 'n']
  else if c = '\r' then ['\\', 'r']
  else if c.toNat < 32 ∨ c.toNat = 127 then '\\' :: 'x' :: hexDigits 2 c.toNat
  else if P c then [c]
  else if c.toNat < 256 then '\\' :: 'x' :: hexDigits 2 c.toNat
  else if c.toNat < 65536 then '\\' :: 'u' :: hexDigits 4 c.toNat
  else '\\' :: 'U' :: hexDigits 8 c.toNat

/-- CPython `repr` of a one-character string: single quotes, except that a
lone `'` is rendered inside double quotes. -/
def reprChar (P : Char → Bool) (c : Char) : List Char :=
  if c = '\'' then '"' :: charBody P '"' c ++ ['"']
  else '\'' :: charBody P '\'' c ++ ['\'']

/-- One string-literal item as read back by `eval`: an escape sequence, or
any literal character other than the delimiter and the backslash. -/
def parseEscape (rest : List Char) : Option (Char × List Char) :=
  match rest with
  | [] => none
  | e :: rest2 =>
    if e = '\\' then some ('\\', rest2)
    else if e = '\'' then some ('\'', rest2)
    else if e = '"' then some ('"', rest2)
    else if e = 'n' then some ('\n', rest2)
    else if e = 'r' then some ('\r', rest2)
    else if e = 't' then some ('\t', rest2)
    else if e = 'x' then (parseHexW 2 0 rest2).map (fun p => (Char.ofNat p.1, p.2))
    else if e = 'u' then (parseHexW 4 0 rest2).map (fun p => (Char.ofNat p.1, p.2))
    else if e = 'U' then (parseHexW 8 0 rest2).map (fun p => (Char.ofNat p.1, p.2))
    else none

def parseItem (q : Char) (l : List Char) : Option (Char × List Char) :=
  match l with
  | [] => none
  | c :: rest =>
    if c = '\\' then parseEscape rest
    else if c = q then none
    else some (c, rest)

/-- A one-character Python string literal, as read back by `eval`. -/
def parseQuoted : List Char → Option (Char × List Char)
  | [] => none
  | q :: rest =>
    if q = '\'' ∨ q = '"' then
      match parseItem q rest with
      | some (c, rest2) =>
        match rest2 with
        | q2 :: rest3 => if q2 = q then some (c, rest3) else none
        | [] => none
      | none => none
    else none

/-- The entry list of `str(char_freq)`: `'k': v` entries joined by `, `. -/
def reprEntries (P : Char → Bool) : List (Char × Nat) → List Char
  | [] => []
  | (c, n) :: rest =>
    reprChar P c ++ ':' :: ' ' ::
      (natRepr n ++ match rest with
        | [] => []
        | _ :: _ => ',' :: ' ' :: reprEntries P rest)

/-- `str(char_freq)` — Python's dict display. -/
def reprDict (P : Char → Bool) (m : List (Char × Nat)) : List Char :=
  '{' :: reprEntries P m ++ ['}']

/-- `eval` applied to a dict display of one-character string keys and
non-negative integer values, modelled as the literal parser this reduces to
on such source texts; the fuel bounds the number of entries. -/
def parseEntriesF : Nat → List Char → Option (List (Char × Nat))
  | 0, _ => none
  | fuel + 1, l =>
    match parseQuoted l with
    | some (c, rest) =>
      match rest with
      | ':' :: ' ' :: rest2 =>
        match parseNatLit rest2 with
        | some (n, rest3) =>
          match rest3 with
          | ['}'] => some [(c, n)]
          | ',' :: ' ' :: rest4 => (parseEntriesF fuel rest4).map (fun m => (c, n) :: m)
          | _ => none
        | none => none
      | _ => none
    | none => none

/-- `eval(text)` for a frequency-map dict display: `{}` is the empty dict,
anything else must be a brace-delimited entry list spanning the whole text. -/
def parseDict (l : List Char) : Option (List (Char × Nat)) :=
  match l with
  | '{' :: rest =>
    if rest = ['}'] then some [] else parseEntriesF rest.length rest
  | _ => none

/-- SQLite's default `LIKE` character comparison: ASCII letters compare
case-insensitively, everything else exactly. -/
def likeFold (c : Char) : Char :=
  if 'A' ≤ c ∧ c ≤ 'Z' then Char.ofNat (c.toNat + 32) else c

def likeEq (a b : Char) : Bool :=
  likeFold a == likeFold b

/-- SQLite `LIKE` matching with explicit fuel (one unit per step; each step
shortens pattern plus string, so `|p| + |s| + 1` units always suffice):
`%` matches any run, `_` any single character, and plain characters match
via `likeEq`. -/
def likeAux : Nat → List Char → List Char → Bool
  | 0, _, _ => false
  | fuel + 1, p, s =>
    match p with
    | [] => s.isEmpty
    | c :: p2 =>
      if c = '%' then
        likeAux fuel p2 s ||
          (match s with
           | [] => false
           | _ :: s2 => likeAux fuel (c :: p2) s2)
      else
        match s with
        | [] => false
        | d :: s2 => (if c = '_' then true else likeEq c d) && likeAux fuel p2 s2

/-- `value LIKE pattern` under SQLite's default semantics. -/
def sqliteLike (p s : List Char) : Bool :=
  likeAux (p.length + s.length + 1) p s

/-- The pattern `f"%{x}%"` built by both filtering endpoints. -/
def likePattern (x : List Char) : List Char :=
  '%' :: (x ++ ['%'])

/-- Leading digit run with single underscores strictly between digits, as
accepted by Python `int()` after the first digit. -/
def pyDigitsAux : List Char → Nat → Option Nat
  | [], acc => some acc
  | c :: rest, acc =>
    if isAsciiDigit c then pyDigitsAux rest (10 * acc + digitVal c)
    else if c = '_' then
      match rest with
      | d :: rest2 =>
        if isAsciiDigit d then pyDigitsAux rest2 (10 * acc + digitVal d) else none
      | [] => none
    else none

/-- Digit part of `int()`: at least one digit, underscores only between
digits. -/
def pyIntCore (l : List Char) : Option Nat :=
  match l with
  | [] => none
  | c :: rest => if isAsciiDigit c then pyDigitsAux rest (digitVal c) else none

/-- Python `int(s)` (ASCII model): strip surrounding whitespace, then an
optional sign followed immediately by digits; `ValueError` is `none`. -/
def pyInt (l : List Char) : Option Int :=
  match (l.dropWhile isPySpace).reverse.dropWhile isPySpace |>.reverse with
  | '+' :: r => (pyIntCore r).map (fun n => (n : Int))
  | '-' :: r => (pyIntCore r).map (fun n => -(n : Int))
  | r => (pyIntCore r).map (fun n => (n : Int))

/-- A row of the `strings` table (`init_db`, `src/app.py` lines 18-33):
`character_frequency_map` is stored as the text `str(char_freq)` and
`created_at` as an opaque timestamp string. -/
structure Record where
  id : List Char
  value : List Char
  length : Nat
  is_palindrome : Bool
  unique_characters : Nat
  word_count : Nat
  sha256_hash : List Char
  freqText : List Char
  created_at : List Char
  deriving Repr, DecidableEq

/-- The table contents in insertion (rowid) order. -/
abbrev Store := List Record

/-- The row `create_string` inserts for `value`: the content hash is both
the primary key `id` and the `sha256_hash` column, and the frequency map is
serialised with `str()`. -/
def recordOf (hash : List Char → List Char) (P : Char → Bool) (now : List Char)
    (v : List Char) : Record :=
  { id := hash v
    value := v
    length := (analyzeString v).length
    is_palindrome := (analyzeString v).is_palindrome
    unique_characters := (analyzeString v).unique_characters
    word_count := (analyzeString v).word_count
    sha256_hash := hash v
    freqText := reprDict P (analyzeString v).character_frequency_map
    created_at := now }

inductive CreateResult
  | created
  | conflict
  deriving Repr, DecidableEq

/-- `create_string` (`src/app.py` lines 107-150) after body validation: the
`INSERT` raises `IntegrityError` — reported as a 409 conflict with the store
unchanged — exactly when a row already holds the same primary key
(`id = hash v`) or the same unique `value`; otherwise the new row is
appended and committed. -/
def createString (hash : List Char → List Char) (P : Char → Bool) (now : List Char)
    (store : Store) (v : List Char) : CreateResult × Store :=
  if store.any (fun r => r.id == hash v || r.value == v) then
    (CreateResult.conflict, store)
  else
    (CreateResult.created, store ++ [recordOf hash P now v])

/-- `get_string` (`src/app.py` lines 152-173): look up the first row with
this exact `value` (404 = outer `none`) and rebuild the frequency map with
`eval` (a crash of which would be the inner `none`). -/
def getString (store : Store) (v : List Char) :
    Option (Record × Option (List (Char × Nat))) :=
  (store.find? (fun r => r.value == v)).map (fun r => (r, parseDict r.freqText))

inductive DeleteResult
  | notFound
  | noContent
  deriving Repr, DecidableEq

/-- `delete_string` (`src/app.py` lines 309-319): `DELETE WHERE value = ?`;
404 when the rowcount is zero, 204 otherwise. -/
def deleteString (store : Store) (v : List Char) : DeleteResult × Store :=
  if store.countP (fun r => r.value == v) == 0 then
    (DeleteResult.notFound, store.filter (fun r => !(r.value == v)))
  else
    (DeleteResult.noContent, store.filter (fun r => !(r.value == v)))

/-- The raw query parameters of `GET /strings` (`request.args.get` yields a
string or `None`). -/
structure QueryParams where
  is_palindrome : Option (List Char)
  min_length : Option (List Char)
  max_length : Option (List Char)
  word_count : Option (List Char)
  contains_character : Option (List Char)
  deriving Repr, DecidableEq

/-- The `filters_applied` dictionary of `get_all_strings` — the typed
constraints actually added to the SQL query. -/
structure Applied where
  is_palindrome : Option Bool
  min_length : Option Int
  max_length : Option Int
  word_count : Option Int
  contains_character : Option (List Char)
  deriving Repr, DecidableEq

/-- The `WHERE` clause of `get_all_strings`, embedded as a row predicate:
each present constraint is conjoined (`1=1` plus `AND`s), with the
containment constraint evaluated as `value LIKE '%' + x + '%'`. -/
def rowMatches (a : Applied) (r : Record) : Bool :=
  (match a.is_palindrome with
   | none => true
   | some b => r.is_palindrome == b) &&
  (match a.min_length with
   | none => true
   | some n => n ≤ (r.length : Int)) &&
  (match a.max_length with
   | none => true
   | some n => (r.length : Int) ≤ n) &&
  (match a.word_count with
   | none => true
   | some n => ((r.word_count : Int) == n)) &&
  (match a.contains_character with
   | none => true
   | some x => sqliteLike (likePattern x) r.value)

inductive ListResult
  | badRequest
  | ok (data : List Record) (filtersApplied : Applied)
  deriving Repr, DecidableEq

/-- `int(param)` for an optional parameter: absent stays absent, present
text must parse or the whole request is malformed. -/
def parseOptInt (o : Option (List Char)) : Option (Option Int) :=
  match o with
  | none => some none
  | some s => (pyInt s).map some

/-- `get_all_strings` (`src/app.py` lines 175-241): `is_palindrome` is
coerced with `param.lower() == 'true'` (it cannot fail), the three integer
parameters go through `int()` whose `ValueError` yields the 400 response,
`contains_character` is used as-is, and the surviving rows are returned in
store order together with `filters_applied`. -/
def getAllStrings (store : Store) (p : QueryParams) : ListResult :=
  match parseOptInt p.min_length, parseOptInt p.max_length, parseOptInt p.word_count with
  | some mn, some mx, some wc =>
    let a : Applied :=
      { is_palindrome := p.is_palindrome.map (fun s => pyLower s == "true".toList)
        min_length := mn
        max_length := mx
        word_count := wc
        contains_character := p.contains_character }
    ListResult.ok (store.filter (rowMatches a)) a
  | _, _, _ => ListResult.badRequest

/-- The `WHERE` clause built by `filter_by_natural_language` from a parsed
filter dictionary (`src/app.py` lines 257-282). -/
def rowMatchesNL (f : Filters) (r : Record) : Bool :=
  (match f.is_palindrome with
   | none => true
   | some b => r.is_palindrome == b) &&
  (match f.min_length with
   | none => true
   | some n => n ≤ (r.length : Int)) &&
  (match f.max_length with
   | none => true
   | some n => (r.length : Int) ≤ n) &&
  (match f.word_count with
   | none => true
   | some n => r.word_count == n) &&
  (match f.contains_character with
   | none => true
   | some c => sqliteLike (likePattern [c]) r.value)

inductive NLResult
  | missingQuery
  | unparseable
  | ok (data : List Record) (original : List Char) (parsedFilters : Filters)
  deriving Repr, DecidableEq

/-- `filter_by_natural_language` (`src/app.py` lines 243-307): a missing or
empty `query` parameter is a 400, an empty parsed filter dictionary is the
unparseable-query 400, and otherwise the matching rows are returned with
the echoed query and parsed filters. -/
def filterNL (store : Store) (q : Option (List Char)) : NLResult :=
  match q with
  | none => NLResult.missingQuery
  | some t =>
    if t.isEmpty then NLResult.missingQuery
    else if (parseNL t).isEmptyB then NLResult.unparseable
    else NLResult.ok (store.filter (rowMatchesNL (parseNL t))) t (parseNL t)

/-- One mutating request against the service. -/
inductive Op
  | create (now v : List Char)
  | delete (v : List Char)

def execOp (hash : List Char → List Char) (P : Char → Bool) (store : Store) : Op → Store
  | Op.create now v => (createString hash P now store v).2
  | Op.delete v => (deleteString store v).2

/-- The store reached from the empty table by a sequence of create and
delete requests. -/
def execOps (hash : List Char → List Char) (P : Char → Bool) (ops : List Op) : Store :=
  ops.foldl (execOp hash P) []

theorem charFreq_sums (s : List Char) : sumCounts (charFreq s) = s.length := by
  simpa [sumCounts] using sumCounts_foldl s []

/-- C1: for every string `s`, `analyze(s).is_palindrome` is true iff the
case-folded (lowercased) reverse of `s` equals the case-folded `s`; in
particular it holds for `"Racecar"` and fails for `"hello"`. -/
theorem analyze_is_palindrome_spec (s : List Char) :
    ((analyzeString s).is_palindrome = true ↔ pyLower s.reverse = pyLower s) ∧
      (analyzeString ("Racecar".toList)).is_palindrome = true ∧
      (analyzeString ("hello".toList)).is_palindrome = false := by
  refine ⟨?_, by decide, by decide⟩
  show (pyLower s == (pyLower s).reverse) = true ↔ pyLower s.reverse = pyLower s
  rw [beq_iff_eq]
  unfold pyLower
  rw [List.map_reverse]
  exact ⟨fun h => h.symm, fun h => h.symm⟩

/-- C8: for every string `s`, the frequency counts of
`analyze(s).character_frequency_map` sum to `analyze(s).length`, which is
`len(s)`. -/
theorem char_frequency_sums_to_length (s : List Char) :
    sumCounts (analyzeString s).character_frequency_map = (analyzeString s).length ∧
      (analyzeString s).length = s.length := by
  exact ⟨charFreq_sums s, rfl⟩

theorem deleteString_snd (store : Store) (v : List Char) :
    (deleteString store v).2 = store.filter (fun r => !(r.value == v)) := by
  unfold deleteString
  split <;> rfl

theorem pairwise_execOp (hash : List Char → List Char) (P : Char → Bool)
    (store : Store) (op : Op)
    (h : store.Pairwise (fun a b => a.value ≠ b.value)) :
    (execOp hash P store op).Pairwise (fun a b => a.value ≠ b.value) := by
  cases op with
  | create now v =>
    show ((createString hash P now store v).2).Pairwise _
    unfold createString
    by_cases hc : store.any (fun r => r.id == hash v || r.value == v) = true
    · rw [if_pos hc]
      exact h
    · rw [if_neg hc]
      show (store ++ [recordOf hash P now v]).Pairwise _
      simp only [List.pairwise_append]
      refine ⟨h, by simp, ?_⟩
      intro a ha b hb
      simp only [List.mem_singleton] at hb
      subst hb
      simp only [List.any_eq_true, not_exists, not_and] at hc
      have := hc a ha
      simp only [Bool.or_eq_true, beq_iff_eq, not_or] at this
      simpa [recordOf] using this.2
  | delete v =>
    show ((deleteString store v).2).Pairwise _
    rw [deleteString_snd]
    exact h.sublist (List.filter_sublist store)

theorem pairwise_foldl_execOp (hash : List Char → List Char) (P : Char → Bool)
    (ops : List Op) :
    ∀ store : Store, store.Pairwise (fun a b => a.value ≠ b.value) →
      (ops.foldl (execOp hash P) store).Pairwise (fun a b => a.value ≠ b.value) := by
  induction ops with
  | nil => intro store h; simpa using h
  | cons op rest ih =>
    intro store h
    exact ih _ (pairwise_execOp hash P store op h)

/-- C2: after any sequence of create and delete requests the store never
holds two rows with equal `value`; a create whose `value` is already stored
is rejected as a conflict with the store unchanged, and in particular the
create immediately following a successful create of the same `value` is so
rejected. -/
theorem duplicate_value_rejected (hash : List Char → List Char) (P : Char → Bool)
    (ops : List Op) (store : Store) (now now2 v : List Char) :
    (execOps hash P ops).Pairwise (fun a b => a.value ≠ b.value) ∧
      (store.any (fun r => r.value == v) = true →
        createString hash P now store v = (CreateResult.conflict, store)) ∧
      ((createString hash P now store v).1 = CreateResult.created →
        createString hash P now2 (createString hash P now store v).2 v =
          (CreateResult.conflict, (createString hash P now store v).2)) := by
  refine ⟨pairwise_foldl_execOp hash P ops [] (by simp), ?_, ?_⟩
  · intro h
    unfold createString
    rw [if_pos]
    simp only [List.any_eq_true] at h ⊢
    obtain ⟨r, hr, hrv⟩ := h
    exact ⟨r, hr, by simp [hrv]⟩
  · intro h
    by_cases hc : store.any (fun r => r.id == hash v || r.value == v) = true
    · unfold createString at h
      rw [if_pos hc] at h
      simp at h
    · have h2 : (createString hash P now store v).2 = store ++ [recordOf hash P now v] := by
        simp [createString, hc]
      rw [h2]
      unfold createString
      rw [if_pos]
      simp [recordOf]

/-- C9: deleting a `value` with no matching row is reported not-found with
the store unchanged, and any delete of `v` immediately following a delete of
`v` — in particular one following a successful delete — is reported
not-found. -/
theorem delete_not_found_idempotent (store : Store) (v : List Char) :
    (store.all (fun r => !(r.value == v)) = true →
      deleteString store v = (DeleteResult.notFound, store)) ∧
      (deleteString (deleteString store v).2 v).1 = DeleteResult.notFound := by
  constructor
  · intro h
    simp only [List.all_eq_true] at h
    have hcnt : store.countP (fun r => r.value == v) = 0 := by
      rw [List.countP_eq_zero]
      intro r hr
      simpa using h r hr
    unfold deleteString
    rw [List.filter_eq_self.mpr h, hcnt]
    rfl
  · rw [deleteString_snd]
    have hcnt : (store.filter (fun r => !(r.value == v))).countP
        (fun r => r.value == v) = 0 := by
      rw [List.countP_eq_zero]
      intro r hr
      simp only [List.mem_filter] at hr
      simpa using hr.2
    unfold deleteString
    rw [hcnt]
    rfl

/-- Witness for `duplicate_value_rejected`: a store already holding the
value `"a"` rejects its re-creation as a conflict, leaving the store as it
was. -/
theorem duplicate_value_rejected_witness :
    ([⟨[], ['a'], 1, true, 1, 1, [], [], []⟩] : Store).any
        (fun r => r.value == ['a']) = true ∧
      createString (fun l => l) (fun _ => true) [] [⟨[], ['a'], 1, true, 1, 1, [], [], []⟩]
          ['a'] =
        (CreateResult.conflict, [⟨[], ['a'], 1, true, 1, 1, [], [], []⟩]) :=
  ⟨by decide,
    (duplicate_value_rejected (fun l => l) (fun _ => true) [] [⟨[], ['a'], 1, true, 1, 1, [], [], []⟩]
        [] [] ['a']).2.1 (by decide)⟩

/-- Witness for `delete_not_found_idempotent`: deleting `"a"` from the empty
store reports not-found. -/
theorem delete_not_found_idempotent_witness :
    (([] : Store).all (fun r => !(r.value == ['a'])) = true) ∧
      deleteString [] ['a'] = (DeleteResult.notFound, []) :=
  ⟨by decide, (delete_not_found_idempotent [] ['a']).1 (by decide)⟩

/-- C5: whenever the containment pattern matches the (lowercased) query and
the query also contains `first vowel`, the `first vowel` rule — evaluated
last — overrides the containment capture, leaving
`contains_character = 'a'`. -/
theorem first_vowel_overrides_containment (q : List Char) (c : Char)
    (h1 : searchContain (pyLower q) = some c)
    (h2 : isSubstrB firstVowelPat (pyLower q) = true) :
    (parseNL q).contains_character = some 'a' := by
  rw [parseNL_contains_character, if_pos h2]

/-- Witness for `first_vowel_overrides_containment`: in
`"containing b and the first vowel"` the containment pattern captures `b`,
yet the translated filter asks for `'a'`. -/
theorem first_vowel_overrides_containment_witness :
    searchContain (pyLower ("containing b and the first vowel".toList)) = some 'b' ∧
      isSubstrB firstVowelPat (pyLower ("containing b and the first vowel".toList)) = true ∧
      (parseNL ("containing b and the first vowel".toList)).contains_character = some 'a' :=
  ⟨by decide, by decide,
    first_vowel_overrides_containment ("containing b and the first vowel".toList) 'b'
      (by decide) (by decide)⟩

/-- C6: a query matching `longer than N` translates to `min_length = N + 1`
and one matching `shorter than N` to `max_length = N - 1`; in particular
`"strings longer than 5 characters"` yields exactly `{min_length: 6}`. -/
theorem length_bounds_translation (q : List Char) (n : Nat) :
    (searchIntAfter longerPat (pyLower q) = some n →
      (parseNL q).min_length = some ((n : Int) + 1)) ∧
      (searchIntAfter shorterPat (pyLower q) = some n →
        (parseNL q).max_length = some ((n : Int) - 1)) ∧
      parseNL ("strings longer than 5 characters".toList) =
        { is_palindrome := none, word_count := none, min_length := some 6,
          max_length := none, contains_character := none } := by
  refine ⟨?_, ?_, by decide⟩
  · intro h
    rw [parseNL_min_length, h]
    rfl
  · intro h
    rw [parseNL_max_length, h]
    rfl

/-- Witness for `length_bounds_translation`, at the spec's two examples. -/
theorem length_bounds_translation_witness :
    searchIntAfter longerPat (pyLower ("strings longer than 5 characters".toList)) =
        some 5 ∧
      (parseNL ("strings longer than 5 characters".toList)).min_length = some 6 ∧
      searchIntAfter shorterPat
          (pyLower ("strings shorter than 10 that are palindromes".toList)) = some 10 ∧
      (parseNL ("strings shorter than 10 that are palindromes".toList)).max_length =
        some 9 :=
  ⟨by decide, (length_bounds_translation ("strings longer than 5 characters".toList) 5).1
      (by decide),
    by decide,
    (length_bounds_translation ("strings shorter than 10 that are palindromes".toList)
        10).2.1 (by decide)⟩

/-- C7: every non-empty query text whose parsed filter set is empty — no
translation rule fired — is answered with the unparseable-query error, e.g.
`"banana bread"`; any query with a non-empty parsed filter set is answered
with the (possibly empty) list of matching rows, never with that error; the
empty store paired with a parseable query yields the empty result set. -/
theorem unparseable_query_distinct (store store2 store3 : Store) (q q2 : List Char) :
    filterNL store (some ("banana bread".toList)) = NLResult.unparseable ∧
      (q2.isEmpty = false → (parseNL q2).isEmptyB = true →
        filterNL store3 (some q2) = NLResult.unparseable) ∧
      (q.isEmpty = false → (parseNL q).isEmptyB = false →
        filterNL store2 (some q) =
            NLResult.ok (store2.filter (rowMatchesNL (parseNL q))) q (parseNL q) ∧
          filterNL store2 (some q) ≠ NLResult.unparseable) ∧
      filterNL [] (some ("strings longer than 5 characters".toList)) =
        NLResult.ok [] ("strings longer than 5 characters".toList)
          { is_palindrome := none, word_count := none, min_length := some 6,
            max_length := none, contains_character := none } := by
  refine ⟨?_, ?_, ?_, by decide⟩
  · show filterNL store (some ("banana bread".toList)) = NLResult.unparseable
    simp only [filterNL]
    rw [if_neg (by decide), if_pos (by decide)]
  · intro h1 h2
    simp [filterNL, h1, h2]
  · intro h1 h2
    constructor
    · simp [filterNL, h1, h2]
    · simp [filterNL, h1, h2]

/-- Witness for `unparseable_query_distinct`: `"hello world"` fires no rule
and is answered unparseable, while `"palindromic words"` parses to a
non-empty filter set and is answered with a result list. -/
theorem unparseable_query_distinct_witness :
    ("hello world".toList).isEmpty = false ∧
      (parseNL ("hello world".toList)).isEmptyB = true ∧
      filterNL [] (some ("hello world".toList)) = NLResult.unparseable ∧
      ("palindromic words".toList).isEmpty = false ∧
      (parseNL ("palindromic words".toList)).isEmptyB = false ∧
      (filterNL [] (some ("palindromic words".toList)) =
          NLResult.ok ([].filter (rowMatchesNL (parseNL ("palindromic words".toList))))
            ("palindromic words".toList) (parseNL ("palindromic words".toList)) ∧
        filterNL [] (some ("palindromic words".toList)) ≠ NLResult.unparseable) :=
  ⟨by decide, by decide,
    (unparseable_query_distinct [] [] [] ("palindromic words".toList)
        ("hello world".toList)).2.1 (by decide) (by decide),
    by decide, by decide,
    (unparseable_query_distinct [] [] [] ("palindromic words".toList)
        ("hello world".toList)).2.2.1 (by decide) (by decide)⟩

theorem likeAux_percent_nil :
    ∀ (s : List Char) (fuel : Nat), s.length + 1 < fuel → likeAux fuel ['%'] s = true := by
  intro s
  induction s with
  | nil =>
    intro fuel h
    obtain ⟨f, rfl⟩ : ∃ f, fuel = f + 2 := ⟨fuel - 2, by omega⟩
    rfl
  | cons d s2 ih =>
    intro fuel h
    obtain ⟨f, rfl⟩ : ∃ f, fuel = f + 1 := ⟨fuel - 1, by omega⟩
    have h2 : likeAux f ['%'] s2 = true := ih f (by simp at h; omega)
    simp [likeAux, h2]

theorem likeAux_contains (c : Char) (hp : c ≠ '%') (hu : c ≠ '_') :
    ∀ (s : List Char) (fuel : Nat), s.length + 3 < fuel →
      likeAux fuel ['%', c, '%'] s = s.any (fun d => likeEq c d) := by
  intro s
  induction s with
  | nil =>
    intro fuel h
    obtain ⟨f, rfl⟩ : ∃ f, fuel = f + 2 := ⟨fuel - 2, by omega⟩
    simp [likeAux, hp]
  | cons d s2 ih =>
    intro fuel h
    obtain ⟨f, rfl⟩ : ∃ f, fuel = f + 1 := ⟨fuel - 1, by omega⟩
    obtain ⟨g, rfl⟩ : ∃ g, f = g + 1 := ⟨f - 1, by omega⟩
    have hrec : likeAux (g + 1) ['%', c, '%'] s2 = s2.any (fun d => likeEq c d) :=
      ih (g + 1) (by simp at h; omega)
    have hper : likeAux g ['%'] s2 = true := likeAux_percent_nil s2 g (by simp at h; omega)
    have e1 : likeAux (g + 1 + 1) ['%', c, '%'] (d :: s2) =
        (likeAux (g + 1) [c, '%'] (d :: s2) || likeAux (g + 1) ['%', c, '%'] s2) := rfl
    have e2 : likeAux (g + 1) [c, '%'] (d :: s2) = likeEq c d := by
      simp [likeAux, hp, hu, hper]
    rw [e1, e2, hrec, List.any_cons]

theorem sqliteLike_contains_char (c : Char) (v : List Char) (hp : c ≠ '%')
    (hu : c ≠ '_') :
    sqliteLike (likePattern [c]) v = v.any (fun d => likeEq c d) := by
  unfold sqliteLike likePattern
  exact likeAux_contains c hp hu v _ (by simp [likePattern]; omega)

/-- C3 (amended): for every record and every containment filter on a
character `c` that is not a `LIKE` wildcard, the record matches iff `c`
occurs somewhere in its `value` under SQLite's ASCII-case-insensitive
`LIKE` comparison — not under case-sensitive equality; this holds for both
the structured path and the natural-language path, whose `WHERE` clauses
build the same `'%' + c + '%'` pattern. -/
theorem contains_character_matches_ascii_fold (c : Char) (r : Record)
    (hp : c ≠ '%') (hu : c ≠ '_') :
    (rowMatchesNL
          { is_palindrome := none, word_count := none, min_length := none,
            max_length := none, contains_character := some c } r = true ↔
        ∃ d ∈ r.value, likeFold d = likeFold c) ∧
      (rowMatches
          { is_palindrome := none, min_length := none, max_length := none,
            word_count := none, contains_character := some [c] } r = true ↔
        ∃ d ∈ r.value, likeFold d = likeFold c) := by
  constructor
  · simp only [rowMatchesNL]
    rw [sqliteLike_contains_char c r.value hp hu]
    simp only [Bool.true_and, List.any_eq_true, likeEq, beq_iff_eq]
    exact ⟨fun ⟨d, hd, he⟩ => ⟨d, hd, he.symm⟩, fun ⟨d, hd, he⟩ => ⟨d, hd, he.symm⟩⟩
  · simp only [rowMatches]
    rw [sqliteLike_contains_char c r.value hp hu]
    simp only [Bool.true_and, List.any_eq_true, likeEq, beq_iff_eq]
    exact ⟨fun ⟨d, hd, he⟩ => ⟨d, hd, he.symm⟩, fun ⟨d, hd, he⟩ => ⟨d, hd, he.symm⟩⟩

/-- Counterexample to C3 as stated: the filter `contains_character = 'a'`
matches the stored value `"A"` even though `'a'` does not occur in `"A"`
case-sensitively. -/
theorem contains_character_case_sensitive_cex :
    rowMatchesNL
        { is_palindrome := none, word_count := none, min_length := none,
          max_length := none, contains_character := some 'a' }
        ⟨[], ['A'], 1, false, 1, 1, [], [], []⟩ = true ∧
      (['A'] : List Char).contains 'a' = false := by
  decide

/-- Witness for `contains_character_matches_ascii_fold` at `c = 'a'` and a
record with value `"xyz"`. -/
theorem contains_character_matches_ascii_fold_witness :
    ('a' ≠ '%') ∧ ('a' ≠ '_') ∧
      ((rowMatchesNL
            { is_palindrome := none, word_count := none, min_length := none,
              max_length := none, contains_character := some 'a' }
            ⟨[], ['x', 'y', 'z'], 3, false, 3, 1, [], [], []⟩ = true ↔
          ∃ d ∈ (['x', 'y', 'z'] : List Char), likeFold d = likeFold 'a') ∧
        (rowMatches
            { is_palindrome := none, min_length := none, max_length := none,
              word_count := none, contains_character := some ['a'] }
            ⟨[], ['x', 'y', 'z'], 3, false, 3, 1, [], [], []⟩ = true ↔
          ∃ d ∈ (['x', 'y', 'z'] : List Char), likeFold d = likeFold 'a')) :=
  ⟨by decide, by decide,
    contains_character_matches_ascii_fold 'a' ⟨[], ['x', 'y', 'z'], 3, false, 3, 1, [], [], []⟩
      (by decide) (by decide)⟩

/-- C4 (amended): `get_all_strings` answers 400 exactly when one of the
three integer parameters is present and not `int()`-parseable; the
`is_palindrome` parameter is never validated — present text is coerced to
`text.lower() == 'true'` and the request succeeds. -/
theorem malformed_params_badRequest (store : Store) (p : QueryParams) :
    (getAllStrings store p = ListResult.badRequest ↔
        (parseOptInt p.min_length = none ∨ parseOptInt p.max_length = none ∨
          parseOptInt p.word_count = none)) ∧
      (∀ mn mx wc, parseOptInt p.min_length = some mn →
        parseOptInt p.max_length = some mx → parseOptInt p.word_count = some wc →
        getAllStrings store p =
          ListResult.ok
            (store.filter (rowMatches
              { is_palindrome := p.is_palindrome.map (fun s => pyLower s == "true".toList)
                min_length := mn
                max_length := mx
                word_count := wc
                contains_character := p.contains_character }))
            { is_palindrome := p.is_palindrome.map (fun s => pyLower s == "true".toList)
              min_length := mn
              max_length := mx
              word_count := wc
              contains_character := p.contains_character }) := by
  constructor
  · unfold getAllStrings
    rcases hmn : parseOptInt p.min_length with _ | mn <;>
      rcases hmx : parseOptInt p.max_length with _ | mx <;>
        rcases hwc : parseOptInt p.word_count with _ | wc <;> simp
  · intro mn mx wc hmn hmx hwc
    unfold getAllStrings
    rw [hmn, hmx, hwc]

/-- Counterexample to C4 as stated: `is_palindrome=banana` is not parseable
as a boolean, yet the request is answered 200 with the filter coerced to
`false` rather than with a malformed-request error. -/
theorem is_palindrome_param_not_validated_cex :
    getAllStrings []
        { is_palindrome := some ("banana".toList), min_length := none,
          max_length := none, word_count := none, contains_character := none } =
      ListResult.ok []
        { is_palindrome := some false, min_length := none, max_length := none,
          word_count := none, contains_character := none } ∧
      getAllStrings []
          { is_palindrome := some ("banana".toList), min_length := none,
            max_length := none, word_count := none, contains_character := none } ≠
        ListResult.badRequest := by
  constructor
  · decide
  · decide

/-- Witness for `malformed_params_badRequest`: with `is_palindrome=TRUE` and
`min_length=3` the integer parses and the request succeeds with the coerced
boolean filter. -/
theorem malformed_params_badRequest_witness :
    parseOptInt (some ("3".toList)) = some (some 3) ∧
      getAllStrings []
          { is_palindrome := some ("TRUE".toList), min_length := some ("3".toList),
            max_length := none, word_count := none, contains_character := none } =
        ListResult.ok []
          { is_palindrome := some true, min_length := some 3, max_length := none,
            word_count := none, contains_character := none } :=
  ⟨by decide, by
    have := (malformed_params_badRequest []
        { is_palindrome := some ("TRUE".toList), min_length := some ("3".toList),
          max_length := none, word_count := none, contains_character := none }).2
      (some 3) none none (by decide) (by decide) (by decide)
    simpa using this⟩

theorem hexVal_hexChar : ∀ d : Nat, d < 16 → hexVal (hexChar d) = some d := by
  decide

theorem parseHexW_hexDigits :
    ∀ (w acc n : Nat) (r : List Char), n < 16 ^ w →
      parseHexW w acc (hexDigits w n ++ r) = some (acc * 16 ^ w + n, r) := by
  intro w
  induction w with
  | zero =>
    intro acc n r h
    interval_cases n
    simp [hexDigits, parseHexW]
  | succ w ih =>
    intro acc n r h
    have hdiv : n / 16 ^ w < 16 := by
      rw [Nat.div_lt_iff_lt_mul (Nat.pos_pow_of_pos w (by norm_num))]
      calc n < 16 ^ (w + 1) := h
        _ = 16 * 16 ^ w := by ring
    show parseHexW (w + 1) acc ((hexChar (n / 16 ^ w) :: hexDigits w (n % 16 ^ w)) ++ r) =
      some (acc * 16 ^ (w + 1) + n, r)
    rw [List.cons_append]
    show (match hexVal (hexChar (n / 16 ^ w)) with
      | some d => parseHexW w (16 * acc + d) (hexDigits w (n % 16 ^ w) ++ r)
      | none => none) = some (acc * 16 ^ (w + 1) + n, r)
    rw [hexVal_hexChar _ hdiv]
    show parseHexW w (16 * acc + n / 16 ^ w) (hexDigits w (n % 16 ^ w) ++ r) =
      some (acc * 16 ^ (w + 1) + n, r)
    rw [ih (16 * acc + n / 16 ^ w) (n % 16 ^ w) r
      (Nat.mod_lt _ (Nat.pos_pow_of_pos w (by norm_num)))]
    congr 1
    congr 1
    calc (16 * acc + n / 16 ^ w) * 16 ^ w + n % 16 ^ w
        = acc * (16 ^ w * 16) + (16 ^ w * (n / 16 ^ w) + n % 16 ^ w) := by ring
      _ = acc * 16 ^ (w + 1) + n := by rw [Nat.div_add_mod, pow_succ]

theorem digit_char_props : ∀ d : Nat, d < 10 →
    isAsciiDigit (Char.ofNat (48 + d)) = true ∧ digitVal (Char.ofNat (48 + d)) = d := by
  decide

theorem natRepr_digits (n : Nat) : ∀ c ∈ natRepr n, isAsciiDigit c = true := by
  intro c hc
  unfold natRepr at hc
  by_cases h : n = 0
  · rw [if_pos h] at hc
    simp only [List.mem_singleton] at hc
    subst hc
    decide
  · rw [if_neg h] at hc
    simp only [List.mem_reverse, List.mem_map] at hc
    obtain ⟨d, hd, rfl⟩ := hc
    exact (digit_char_props d (Nat.digits_lt_base (by norm_num) hd)).1

theorem takeWhile_digits_append (a r : List Char)
    (ha : ∀ c ∈ a, isAsciiDigit c = true)
    (hr : ∀ c, r.head? = some c → isAsciiDigit c = false) :
    (a ++ r).takeWhile isAsciiDigit = a ∧ (a ++ r).dropWhile isAsciiDigit = r := by
  induction a with
  | nil =>
    simp only [List.nil_append]
    cases r with
    | nil => simp
    | cons c t =>
      have := hr c rfl
      simp [List.takeWhile, List.dropWhile, this]
  | cons c a2 ih =>
    have hc := ha c (by simp)
    have := ih (fun x hx => ha x (by simp [hx]))
    simp [List.takeWhile, List.dropWhile, hc, this.1, this.2]

theorem foldl_decimal_rev (ds : List Nat) :
    ∀ acc : Nat, (∀ d ∈ ds, d < 10) →
      (ds.map (fun d => Char.ofNat (48 + d))).reverse.foldl
          (fun a d => 10 * a + digitVal d) acc =
        acc * 10 ^ ds.length + Nat.ofDigits 10 ds := by
  induction ds with
  | nil => intro acc _; simp
  | cons d t ih =>
    intro acc hlt
    have hd : d < 10 := hlt d (by simp)
    rw [List.map_cons, List.reverse_cons, List.foldl_append]
    rw [ih acc (fun x hx => hlt x (by simp [hx]))]
    simp only [List.foldl_cons, List.foldl_nil]
    rw [(digit_char_props d hd).2, Nat.ofDigits_cons]
    simp only [List.length_cons]
    ring

theorem parseNatLit_natRepr (n : Nat) (r : List Char)
    (hr : ∀ c, r.head? = some c → isAsciiDigit c = false) :
    parseNatLit (natRepr n ++ r) = some (n, r) := by
  obtain ⟨span1, span2⟩ := takeWhile_digits_append (natRepr n) r (natRepr_digits n) hr
  by_cases h : n = 0
  · subst h
    have s1 : (('0' :: r).takeWhile isAsciiDigit) = ['0'] := by
      simpa [natRepr] using span1
    have s2 : (('0' :: r).dropWhile isAsciiDigit) = r := by
      simpa [natRepr] using span2
    show parseNatLit (['0'] ++ r) = some (0, r)
    simp only [List.cons_append, List.nil_append, parseNatLit]
    rw [if_pos (by decide), s1, s2]
    rfl
  · have hne : natRepr n ≠ [] := by
      unfold natRepr
      rw [if_neg h]
      simp [Nat.digits_ne_nil_iff_ne_zero.mpr h]
    obtain ⟨c, a2, hcons⟩ := List.exists_cons_of_ne_nil hne
    have hcd : isAsciiDigit c = true := natRepr_digits n c (by rw [hcons]; simp)
    rw [hcons] at span1 span2 ⊢
    simp only [List.cons_append] at span1 span2
    show parseNatLit (c :: (a2 ++ r)) = some (n, r)
    simp only [parseNatLit]
    rw [if_pos hcd, span1, span2, ← hcons]
    unfold natRepr
    rw [if_neg h]
    rw [foldl_decimal_rev (Nat.digits 10 n) 0
      (fun d hd => Nat.digits_lt_base (by norm_num) hd)]
    simp [Nat.ofDigits_digits]

theorem char_toNat_lt_total (c : Char) : c.toNat < 1114112 := by
  rcases c.valid with h | h
  · exact Nat.lt_trans h (by norm_num)
  · exact h.2

theorem parseQuoted_wrap (q : Char) (hq : q = '\'' ∨ q = '"') (body : List Char)
    (c : Char) (r : List Char)
    (h : parseItem q (body ++ (q :: r)) = some (c, q :: r)) :
    parseQuoted ((q :: (body ++ [q])) ++ r) = some (c, r) := by
  have e : (q :: (body ++ [q])) ++ r = q :: (body ++ (q :: r)) := by simp
  rw [e]
  simp only [parseQuoted]
  rw [if_pos hq, h]
  simp

theorem parseItem_backslash (q : Char) (rest : List Char) :
    parseItem q ('\\' :: rest) = parseEscape rest := by
  simp only [parseItem]
  rw [if_pos trivial]

theorem parseItem_lit (q c : Char) (rest : List Char) (h1 : c ≠ '\\') (h2 : c ≠ q) :
    parseItem q (c :: rest) = some (c, rest) := by
  simp only [parseItem]
  rw [if_neg h1, if_neg h2]

theorem parseEscape_backslash (r : List Char) : parseEscape ('\\' :: r) = some ('\\', r) := by
  simp only [parseEscape]
  rw [if_pos trivial]

theorem parseEscape_n (r : List Char) : parseEscape ('n' :: r) = some ('\n', r) := by
  simp only [parseEscape]
  rw [if_neg (by decide), if_neg (by decide), if_neg (by decide), if_pos trivial]

theorem parseEscape_r (r : List Char) : parseEscape ('r' :: r) = some ('\r', r) := by
  simp only [parseEscape]
  rw [if_neg (by decide), if_neg (by decide), if_neg (by decide), if_neg (by decide),
    if_pos trivial]

theorem parseEscape_t (r : List Char) : parseEscape ('t' :: r) = some ('\t', r) := by
  simp only [parseEscape]
  rw [if_neg (by decide), if_neg (by decide), if_neg (by decide), if_neg (by decide),
    if_neg (by decide), if_pos trivial]

theorem parseEscape_x (n : Nat) (r : List Char) (h : n < 256) :
    parseEscape ('x' :: (hexDigits 2 n ++ r)) = some (Char.ofNat n, r) := by
  simp only [parseEscape]
  rw [if_neg (by decide), if_neg (by decide), if_neg (by decide), if_neg (by decide),
    if_neg (by decide), if_neg (by decide), if_pos trivial]
  rw [parseHexW_hexDigits 2 0 n r h]
  simp

theorem parseEscape_u (n : Nat) (r : List Char) (h : n < 65536) :
    parseEscape ('u' :: (hexDigits 4 n ++ r)) = some (Char.ofNat n, r) := by
  simp only [parseEscape]
  rw [if_neg (by decide), if_neg (by decide), if_neg (by decide), if_neg (by decide),
    if_neg (by decide), if_neg (by decide), if_neg (by decide), if_pos trivial]
  rw [parseHexW_hexDigits 4 0 n r h]
  simp

theorem parseEscape_U (n : Nat) (r : List Char) (h : n < 4294967296) :
    parseEscape ('U' :: (hexDigits 8 n ++ r)) = some (Char.ofNat n, r) := by
  simp only [parseEscape]
  rw [if_neg (by decide), if_neg (by decide), if_neg (by decide), if_neg (by decide),
    if_neg (by decide), if_neg (by decide), if_neg (by decide), if_neg (by decide),
    if_pos trivial]
  rw [parseHexW_hexDigits 8 0 n r h]
  simp

theorem parseQuoted_reprChar (P : Char → Bool) (c : Char) (r : List Char) :
    parseQuoted (reprChar P c ++ r) = some (c, r) := by
  by_cases hq : c = '\''
  · subst hq
    unfold reprChar
    rw [if_pos rfl]
    unfold charBody
    rw [if_neg (by decide), if_neg (by decide), if_neg (by decide), if_neg (by decide),
      if_neg (by decide), if_neg (by decide)]
    by_cases hP : P '\'' = true
    · rw [if_pos hP]
      exact parseQuoted_wrap '"' (Or.inr rfl) ['\''] '\'' r (by
        simp only [List.cons_append, List.nil_append]
        exact parseItem_lit '"' '\'' _ (by decide) (by decide))
    · rw [if_neg hP, if_pos (by decide)]
      refine parseQuoted_wrap '"' (Or.inr rfl) _ '\'' r ?_
      simp only [List.cons_append]
      rw [parseItem_backslash, parseEscape_x ('\''.toNat) ('"' :: r) (by decide),
        Char.ofNat_toNat]
  · unfold reprChar
    rw [if_neg hq]
    unfold charBody
    rw [if_neg hq]
    by_cases h2 : c = '\\'
    · subst h2
      rw [if_pos rfl]
      refine parseQuoted_wrap '\'' (Or.inl rfl) _ '\\' r ?_
      simp only [List.cons_append, List.nil_append]
      rw [parseItem_backslash, parseEscape_backslash]
    · rw [if_neg h2]
      by_cases h3 : c = '\t'
      · subst h3
        rw [if_pos rfl]
        refine parseQuoted_wrap '\'' (Or.inl rfl) _ '\t' r ?_
        simp only [List.cons_append, List.nil_append]
        rw [parseItem_backslash, parseEscape_t]
      · rw [if_neg h3]
        by_cases h4 : c = '\n'
        · subst h4
          rw [if_pos rfl]
          refine parseQuoted_wrap '\'' (Or.inl rfl) _ '\n' r ?_
          simp only [List.cons_append, List.nil_append]
          rw [parseItem_backslash, parseEscape_n]
        · rw [if_neg h4]
          by_cases h5 : c = '\r'
          · subst h5
            rw [if_pos rfl]
            refine parseQuoted_wrap '\'' (Or.inl rfl) _ '\r' r ?_
            simp only [List.cons_append, List.nil_append]
            rw [parseItem_backslash, parseEscape_r]
          · rw [if_neg h5]
            by_cases h6 : c.toNat < 32 ∨ c.toNat = 127
            · rw [if_pos h6]
              refine parseQuoted_wrap '\'' (Or.inl rfl) _ c r ?_
              simp only [List.cons_append]
              rw [parseItem_backslash, parseEscape_x c.toNat ('\'' :: r) (by omega),
                Char.ofNat_toNat]
            · rw [if_neg h6]
              by_cases h7 : P c = true
              · rw [if_pos h7]
                exact parseQuoted_wrap '\'' (Or.inl rfl) [c] c r (by
                  simp only [List.cons_append, List.nil_append]
                  exact parseItem_lit '\'' c _ h2 hq)
              · rw [if_neg h7]
                by_cases h8 : c.toNat < 256
                · rw [if_pos h8]
                  refine parseQuoted_wrap '\'' (Or.inl rfl) _ c r ?_
                  simp only [List.cons_append]
                  rw [parseItem_backslash, parseEscape_x c.toNat ('\'' :: r) h8,
                    Char.ofNat_toNat]
                · rw [if_neg h8]
                  by_cases h9 : c.toNat < 65536
                  · rw [if_pos h9]
                    refine parseQuoted_wrap '\'' (Or.inl rfl) _ c r ?_
                    simp only [List.cons_append]
                    rw [parseItem_backslash, parseEscape_u c.toNat ('\'' :: r) h9,
                      Char.ofNat_toNat]
                  · rw [if_neg h9]
                    refine parseQuoted_wrap '\'' (Or.inl rfl) _ c r ?_
                    simp only [List.cons_append]
                    rw [parseItem_backslash,
                      parseEscape_U c.toNat ('\'' :: r)
                        (by have := char_toNat_lt_total c; omega),
                      Char.ofNat_toNat]

theorem reprEntries_single (P : Char → Bool) (c : Char) (n : Nat) :
    reprEntries P [(c, n)] = reprChar P c ++ ':' :: ' ' :: (natRepr n ++ []) := rfl

theorem reprEntries_cons_cons (P : Char → Bool) (c : Char) (n : Nat) (e2 : Char × Nat)
    (t2 : List (Char × Nat)) :
    reprEntries P ((c, n) :: e2 :: t2) =
      reprChar P c ++ ':' :: ' ' :: (natRepr n ++ (',' :: ' ' :: reprEntries P (e2 :: t2))) :=
  rfl

theorem parseEntriesF_reprEntries (P : Char → Bool) :
    ∀ (m : List (Char × Nat)) (fuel : Nat), m ≠ [] → m.length ≤ fuel →
      parseEntriesF fuel (reprEntries P m ++ ['}']) = some m := by
  intro m
  induction m with
  | nil => intro fuel h _; exact absurd rfl h
  | cons e t ih =>
    intro fuel _ hlen
    obtain ⟨c, n⟩ := e
    have h1 : 1 ≤ fuel := le_trans (Nat.succ_le_succ (Nat.zero_le _)) hlen
    obtain ⟨f, rfl⟩ : ∃ f, fuel = f + 1 := ⟨fuel - 1, by omega⟩
    cases t with
    | nil =>
      have hq := parseQuoted_reprChar P c (':' :: ' ' :: (natRepr n ++ ['}']))
      have hn : parseNatLit (natRepr n ++ ['}']) = some (n, ['}']) :=
        parseNatLit_natRepr n ['}'] (by
          intro x hx
          simp only [List.head?] at hx
          rw [← Option.some_inj.mp hx]
          decide)
      rw [reprEntries_single]
      simp only [List.append_assoc, List.cons_append, List.append_nil, List.nil_append,
        parseEntriesF, hq, hn]
    | cons e2 t2 =>
      have hq := parseQuoted_reprChar P c
        (':' :: ' ' :: (natRepr n ++ (',' :: ' ' :: (reprEntries P (e2 :: t2) ++ ['}']))))
      have hn : parseNatLit
          (natRepr n ++ (',' :: ' ' :: (reprEntries P (e2 :: t2) ++ ['}']))) =
          some (n, ',' :: ' ' :: (reprEntries P (e2 :: t2) ++ ['}'])) :=
        parseNatLit_natRepr n _ (by
          intro x hx
          simp only [List.head?] at hx
          rw [← Option.some_inj.mp hx]
          decide)
      have hrec : parseEntriesF f (reprEntries P (e2 :: t2) ++ ['}']) = some (e2 :: t2) :=
        ih f (by simp) (by simpa using Nat.le_of_succ_le_succ hlen)
      rw [reprEntries_cons_cons]
      simp only [List.append_assoc, List.cons_append, List.append_nil, List.nil_append,
        parseEntriesF, hq, hn, hrec]
      rfl

theorem reprEntries_length_ge (P : Char → Bool) :
    ∀ m : List (Char × Nat), m.length ≤ (reprEntries P m).length := by
  intro m
  induction m with
  | nil => simp [reprEntries]
  | cons e t ih =>
    obtain ⟨c, n⟩ := e
    cases t with
    | nil =>
      rw [reprEntries_single]
      simp only [List.length_cons, List.length_append, List.length_nil]
      omega
    | cons e2 t2 =>
      rw [reprEntries_cons_cons]
      simp only [List.length_cons, List.length_append] at ih ⊢
      omega

theorem parseDict_reprDict (P : Char → Bool) (m : List (Char × Nat)) :
    parseDict (reprDict P m) = some m := by
  cases m with
  | nil => rfl
  | cons e t =>
    obtain ⟨c, n⟩ := e
    have hne : reprEntries P ((c, n) :: t) ++ ['}'] ≠ ['}'] := by
      intro h
      have h1 : (reprEntries P ((c, n) :: t) ++ ['}']).length = 1 := by rw [h]; rfl
      have h2 := reprEntries_length_ge P ((c, n) :: t)
      simp only [List.length_append, List.length_cons] at h1 h2
      omega
    show parseDict ('{' :: (reprEntries P ((c, n) :: t) ++ ['}'])) = some ((c, n) :: t)
    simp only [parseDict]
    rw [if_neg hne]
    exact parseEntriesF_reprEntries P ((c, n) :: t) _ (by simp)
      (by
        have h2 := reprEntries_length_ge P ((c, n) :: t)
        simp only [List.length_append, List.length_cons] at h2 ⊢
        omega)

/-- C10: for every value whose creation succeeds, looking the value up again
returns the stored row, and `eval` of the `str()`-serialised frequency map
reconstructs exactly the map `analyze_string` computed — the text round-trip
is lossless (for any printability table `P` used by `repr`). -/
theorem frequency_map_roundtrip (P : Char → Bool) (hash : List Char → List Char)
    (now : List Char) (store : Store) (v : List Char)
    (h : (createString hash P now store v).1 = CreateResult.created) :
    getString (createString hash P now store v).2 v =
      some (recordOf hash P now v, some ((analyzeString v).character_frequency_map)) := by
  by_cases hc : store.any (fun r => r.id == hash v || r.value == v) = true
  · unfold createString at h
    rw [if_pos hc] at h
    simp at h
  · have h2 : (createString hash P now store v).2 = store ++ [recordOf hash P now v] := by
      simp [createString, hc]
    rw [h2]
    unfold getString
    have hnone : store.find? (fun r => r.value == v) = none := by
      rw [List.find?_eq_none]
      intro r hr
      simp only [List.any_eq_true, not_exists, not_and] at hc
      have := hc r hr
      simp only [Bool.or_eq_true, not_or] at this
      simpa using this.2
    have hfind : (store ++ [recordOf hash P now v]).find? (fun r => r.value == v) =
        some (recordOf hash P now v) := by
      rw [List.find?_append, hnone]
      simp [List.find?, recordOf]
    rw [hfind]
    have hft : (recordOf hash P now v).freqText =
        reprDict P (analyzeString v).character_frequency_map := rfl
    show some (recordOf hash P now v, parseDict ((recordOf hash P now v).freqText)) =
      some (recordOf hash P now v, some ((analyzeString v).character_frequency_map))
    rw [hft, parseDict_reprDict]

/-- Witness for `frequency_map_roundtrip`: creating `"a"` in the empty store
succeeds, and re-reading it returns the frequency map of `analyze("a")`. -/
theorem frequency_map_roundtrip_witness :
    (createString (fun l => l) (fun _ => true) [] [] ['a']).1 = CreateResult.created ∧
      getString (createString (fun l => l) (fun _ => true) [] [] ['a']).2 ['a'] =
        some (recordOf (fun l => l) (fun _ => true) [] ['a'],
          some ((analyzeString ['a']).character_frequency_map)) :=
  ⟨rfl, frequency_map_roundtrip (fun _ => true) (fun l => l) [] [] ['a'] rfl⟩
